import Mathlib

/-!
Shallow embedding of the rb_wave window-function engine
(src/lib/window_function.c together with the solver headers under
src/lib/internal/solver/window_function/ and
src/ext/internal/solver/window_function/, and the iterator interface
src/ext/internal/algorithm/wf.h) and of the RIFF/WAVE linear-PCM codec
(src/ext/riff.c).

Modelling conventions:
* C `double` values flowing through the window formulas are idealized as
  real numbers (`ℝ`); `isinf` of such an intermediate value is therefore
  `False` and the MDCT clamp `isinf(w[n]) ? 1. : ...` always takes the
  second arm.  The shape *parameter* of a generation request, which the
  dispatcher inspects with `isnan`/`isinf`/`== 0`, is modelled by `WParam`,
  which keeps the NaN and infinite cases of the C double explicit.
* The RIFF codec performs only exact arithmetic (scaling, clamping,
  truncation to integer, byte packing), so its samples are modelled by `ℚ`
  and every codec definition is computable.
* A C array produced by the engine is modelled as a total function
  `ℕ → ℝ`; indices that the C code never writes (i.e. `i ≥ N`) are mapped
  to the junk value `0`.
* `rb_raise` sites are modelled with `Except`; each raise site gets its own
  error constructor.
-/

/-! ## Data model of the iteration engine (src/ext/internal/algorithm/wf.h) -/

/-- Enum `WFIF_ITER_RULE` of src/ext/internal/algorithm/wf.h. -/
inductive WFIF_ITER_RULE
  | WFIF_ITER_1D
  | WFIF_ITER_MDCT
  deriving DecidableEq

/-- Enum `WFIF_SP_EVAL_TYPE` of src/ext/internal/algorithm/wf.h. -/
inductive WFIF_SP_EVAL_TYPE
  | WFIF_NOCNTL
  | WFIF_RECT
  | WFIF_KURT
  deriving DecidableEq

/-- A C `double` as inspected by the parameter dispatcher: NaN, an infinity,
or a finite real value.  Only the dispatcher distinguishes the non-finite
cases; a finite parameter `fin x` behaves as the real number `x`. -/
inductive WParam
  | nan
  | inf
  | neginf
  | fin (x : ℝ)

/-- The value a finite parameter contributes to a formula evaluation
(non-finite parameters never reach a formula in any code path modelled
here). -/
def WParam.toReal : WParam → ℝ
  | .fin x => x
  | _ => 0

/-- C `isnan` on the modelled parameter. -/
def WParam.isnan : WParam → Bool
  | .nan => true
  | _ => false

/-- C `isinf` on the modelled parameter. -/
def WParam.isinf : WParam → Bool
  | .inf => true
  | .neginf => true
  | _ => false

/-- C comparison `param == 0` on the modelled parameter (false for NaN and
for the infinities, `x = 0` for a finite value). -/
def WParam.eqZero : WParam → Prop
  | .fin x => x = 0
  | _ => False

/-- Struct `wf_iterfunc_t` of src/ext/internal/algorithm/wf.h.  The formula
pointer is an `Option` so that the NULL pointer is representable. -/
structure wf_iterfunc_t where
  iterfunc : Option (ℝ → ℕ → ℝ → ℝ)
  param : WParam
  iter_rule : WFIF_ITER_RULE
  handle_param_nan : WFIF_SP_EVAL_TYPE
  handle_param_inf : WFIF_SP_EVAL_TYPE
  handle_param_zero : WFIF_SP_EVAL_TYPE

/-- C `signbit` on an idealized double (the negative-zero case does not
exist in `ℝ`). -/
def signbit (x : ℝ) : Prop := x < 0

/-! ## Special-value fillers (src/lib/window_function.c, wf_iter_make_rect /
wf_iter_make_kurt) -/

/-- `wf_iter_make_rect`: every element of `w[0..N-1]` is set to `1.0`. -/
def wf_iter_make_rect (N : ℕ) : ℕ → ℝ := fun i =>
  if i < N then 1 else 0

/-- `wf_iter_make_kurt`: on both parity branches the loop zeroes every
index of `0..N-1` other than `N/2`, and `w[N/2]` is set to `1.0`. -/
def wf_iter_make_kurt (N : ℕ) : ℕ → ℝ := fun i =>
  if i < N then (if i = N / 2 then 1 else 0) else 0

/-- `wf_iter_cb_sp`: dispatch on the special-evaluation handle. `WFIF_NOCNTL`
leaves the freshly `ALLOC_N`ed buffer untouched (junk, modelled as 0). -/
def wf_iter_cb_sp (handle : WFIF_SP_EVAL_TYPE) (N : ℕ) : ℕ → ℝ :=
  match handle with
  | .WFIF_RECT => wf_iter_make_rect N
  | .WFIF_KURT => wf_iter_make_kurt N
  | .WFIF_NOCNTL => fun _ => 0

/-! ## Parameter-edge-case dispatcher (`wf_iter_errhdl`) -/

open Classical in
/-- `wf_iter_errhdl` of src/lib/window_function.c (lines 892-905): NaN is
checked first, then infinite, then exactly zero; a check fires only when the
matching handle is not `WFIF_NOCNTL`. -/
noncomputable def wf_iter_errhdl (wfif : wf_iterfunc_t) : WFIF_SP_EVAL_TYPE :=
  if ¬wfif.handle_param_nan = .WFIF_NOCNTL ∧ wfif.param.isnan = true then
    wfif.handle_param_nan
  else if ¬wfif.handle_param_inf = .WFIF_NOCNTL ∧ wfif.param.isinf = true then
    wfif.handle_param_inf
  else if ¬wfif.handle_param_zero = .WFIF_NOCNTL ∧ wfif.param.eqZero then
    wfif.handle_param_zero
  else
    .WFIF_NOCNTL

/-! ## The OneDimensional iteration rule (`wf_iter_rule_1d`,
src/lib/window_function.c lines 907-935).

Even `N`: the loop over `n ∈ [0, N/2)` evaluates `value = iterfunc(n, N,
param)` and stores `w[n] = value` and, for `n ≠ 0`, `w[N-n] = value`;
afterwards `w[N/2] = 1.`.  So index `i` with `N/2 < i < N` was written by the
loop iteration `n = N - i`.

Odd `N`: the loop evaluates `iterfunc(n+0.5, N, param)` and stores `w[n]`
and `w[N-1-n]`; afterwards `w[N/2] = 1.`.  Index `i > N/2` was written by
iteration `n = N - 1 - i`. -/

noncomputable def wf_iter_rule_1d (f : ℝ → ℕ → ℝ → ℝ) (param : ℝ) (N : ℕ) :
    ℕ → ℝ := fun i =>
  if i < N then
    if N % 2 = 0 then
      if i = N / 2 then 1
      else if i < N / 2 then f (i : ℕ) N param
      else f ((N - i : ℕ) : ℝ) N param
    else
      if i = N / 2 then 1
      else if i < N / 2 then f ((i : ℝ) + 0.5) N param
      else f (((N - 1 - i : ℕ) : ℝ) + 0.5) N param
  else 0

/-! ## The ModifiedDCT iteration rule (`wf_iter_rule_mdct`,
src/lib/window_function.c lines 937-975).

First loop (even branch): `sum += iterfunc(n, N, param); w[n] = sum`, so at
loop index `n` the stored value is the partial sum of the first `n+1`
formula values.  Then `sum += iterfunc(N/2, N, param)`.  The second loop
replaces `w[n]` by `isinf(w[n]) ? 1. : sqrt(w[n]/sum)` (the `isinf` arm
cannot fire on idealized reals) and mirrors `w[N-1-n] = w[n]`, so index
`i ≥ N/2` was written by iteration `n = N - 1 - i`.  The even branch does
NOT assign `w[N/2] = 1.`; the odd branch does, after its second loop.  In
the odd branch positions are offset by `0.5` and the extra midpoint term is
`iterfunc(N/2.0, N, param)` with real (not integer) division. -/

/-- Partial sums of the even-branch MDCT accumulation: value of `sum` (and
of `w[k-1]`) after `k` iterations of the first loop. -/
noncomputable def mdct_psum_even (f : ℝ → ℕ → ℝ → ℝ) (param : ℝ) (N k : ℕ) : ℝ :=
  ∑ j in Finset.range k, f (j : ℕ) N param

/-- Final value of `sum` in the even branch: half-range sum plus the extra
midpoint term `iterfunc(N/2, N, param)` (integer `N/2`). -/
noncomputable def mdct_sum_even (f : ℝ → ℕ → ℝ → ℝ) (param : ℝ) (N : ℕ) : ℝ :=
  mdct_psum_even f param N (N / 2) + f ((N / 2 : ℕ) : ℝ) N param

/-- Partial sums of the odd-branch MDCT accumulation (positions `j + 0.5`). -/
noncomputable def mdct_psum_odd (f : ℝ → ℕ → ℝ → ℝ) (param : ℝ) (N k : ℕ) : ℝ :=
  ∑ j in Finset.range k, f ((j : ℝ) + 0.5) N param

/-- Final value of `sum` in the odd branch: half-range sum plus the extra
midpoint term `iterfunc(N/2.0, N, param)` (real division, e.g. `2.5` for
`N = 5`). -/
noncomputable def mdct_sum_odd (f : ℝ → ℕ → ℝ → ℝ) (param : ℝ) (N : ℕ) : ℝ :=
  mdct_psum_odd f param N (N / 2) + f ((N : ℝ) / 2) N param

/-- `wf_iter_rule_mdct` final array contents. -/
noncomputable def wf_iter_rule_mdct (f : ℝ → ℕ → ℝ → ℝ) (param : ℝ) (N : ℕ) :
    ℕ → ℝ := fun i =>
  if i < N then
    if N % 2 = 0 then
      if i < N / 2 then
        Real.sqrt (mdct_psum_even f param N (i + 1) / mdct_sum_even f param N)
      else
        Real.sqrt (mdct_psum_even f param N (N - i) / mdct_sum_even f param N)
    else
      if i = N / 2 then 1
      else if i < N / 2 then
        Real.sqrt (mdct_psum_odd f param N (i + 1) / mdct_sum_odd f param N)
      else
        Real.sqrt (mdct_psum_odd f param N (N - i) / mdct_sum_odd f param N)
  else 0

/-- `wf_iter_cb` of src/lib/window_function.c (lines 977-1001): dispatch the
special-value handle first; otherwise run the declared iteration rule.  A
NULL formula pointer would crash in C; it is mapped to the junk array. -/
noncomputable def wf_iter_cb (wfif : wf_iterfunc_t) (N : ℕ) : ℕ → ℝ :=
  match wf_iter_errhdl wfif with
  | .WFIF_RECT => wf_iter_make_rect N
  | .WFIF_KURT => wf_iter_make_kurt N
  | .WFIF_NOCNTL =>
    match wfif.iter_rule, wfif.iterfunc with
    | .WFIF_ITER_1D, some f => wf_iter_rule_1d f wfif.param.toReal N
    | .WFIF_ITER_MDCT, some f => wf_iter_rule_mdct f wfif.param.toReal N
    | _, none => fun _ => 0

/-! ## Window formulas (solver headers) -/

/-- Modelled from the spec: the body of `cyl_bessel_i0` (the modified Bessel
function of the first kind, order zero) is referenced by
src/lib/window_function.c as `missing/cyl_bessel_i0.c` but that file is not
part of src/; the spec (section 4.2) defines `I₀` as the standard function,
with a series expansion acceptable.  We use the defining power series
`I₀(x) = Σ_k (x/2)^(2k) / (k!)²`. -/
noncomputable def cyl_bessel_i0 (x : ℝ) : ℝ :=
  tsum (fun k : ℕ => (x / 2) ^ (2 * k) / ((Nat.factorial k : ℝ)) ^ 2)

/-- Modelled from the spec: `wf_rectangular_expr` is referenced by
`wf_cb_rectangular` (src/lib/window_function.c line 99) but no
rectangular.h solver header is present under src/; the spec's formula
table gives the rectangular window as the constant `1`. -/
noncomputable def wf_rectangular_expr (_n : ℝ) (_N : ℕ) (_param : ℝ) : ℝ := 1

/-- `wf_hann_expr` of src/ext/internal/solver/window_function/hann.h. -/
noncomputable def wf_hann_expr (n : ℝ) (N : ℕ) (_param : ℝ) : ℝ :=
  0.5 - 0.5 * Real.cos (2.0 * Real.pi * n / N)

/-- `wf_generalized_hamming_calc_param` of
src/lib/internal/solver/window_function/generalized_hamming.h (lines 8-15):
a shape parameter outside `[0.5, 1]` raises `RangeError`. -/
inductive WfRangeError
  | rangeError
  deriving DecidableEq

open Classical in
noncomputable def wf_generalized_hamming_calc_param (alpha : ℝ) :
    Except WfRangeError ℝ :=
  if 0.5 ≤ alpha ∧ alpha ≤ 1.0 then .ok alpha else .error .rangeError

/-- `wf_generalized_hamming_eval` of
src/lib/internal/solver/window_function/generalized_hamming.h (lines 17-21);
src/lib/window_function.c line 153 refers to it as
`wf_generalized_hamming_expr`. -/
noncomputable def wf_generalized_hamming_eval (n : ℝ) (N : ℕ) (alpha : ℝ) : ℝ :=
  alpha - (1 - alpha) * Real.cos (2.0 * Real.pi * n / N)

/-- `wf_gaussian_calc_param` of
src/lib/internal/solver/window_function/gaussian_with_param.h, lifted to the
dispatcher's view of a double: `8 * sigma * sigma` is NaN for NaN input and
`+∞` for infinite input. -/
def wf_gaussian_calc_param : WParam → WParam
  | .nan => .nan
  | .inf => .inf
  | .neginf => .inf
  | .fin x => .fin (8 * x * x)

/-- Modelled from the header pair `wf_gaussian_with_param_even` /
`wf_gaussian_with_param_odd`
(src/lib/internal/solver/window_function/gaussian_with_param.h):
src/lib/window_function.c line 404 refers to a unified
`wf_gaussian_with_param_expr` that is not present under src/.  The 1D rule
already feeds the position `n` (even branch) or `n + 0.5` (odd branch), which
is exactly the difference between the two header variants, so the unified
formula is `exp(-((-1 + 2 n / N)² / t2))` with `t2 = 8σ²` precomputed by
`wf_gaussian_calc_param`. -/
noncomputable def wf_gaussian_with_param_expr (n : ℝ) (N : ℕ) (t2 : ℝ) : ℝ :=
  Real.exp (-((-1 + 2 * n / N) * (-1 + 2 * n / N) / t2))

/-- `wf_kaiser_eval` of src/lib/internal/solver/window_function/kaiser.h
(lines 8-18); the `static double i0_3` memo slot caches `cyl_bessel_i0(3)`
and is purely an optimization, so the pure value is used directly. -/
noncomputable def wf_kaiser_eval (n : ℝ) (N : ℕ) (_param : ℝ) : ℝ :=
  cyl_bessel_i0 (6 * Real.sqrt (-(n / N - 1) * (n / N))) / cyl_bessel_i0 3

/-- `wf_kaiser_with_param_expr` of
src/ext/internal/solver/window_function/kaiser_with_param.h (lines 8-27).
The `static prev_alpha / denom` pair memoizes `cyl_bessel_i0(alpha)` across
calls with an unchanged `alpha`; the memo recomputes whenever `alpha`
changes, so the pure value of the function is `denom = cyl_bessel_i0 alpha`.
The `reach_inf` branch (`isinf(denom)`, returning `x == 0.5`) cannot fire on
idealized reals. -/
noncomputable def wf_kaiser_with_param_expr (n : ℝ) (N : ℕ) (alpha : ℝ) : ℝ :=
  cyl_bessel_i0 (alpha * 2 * Real.sqrt (-(n / N - 1) * (n / N))) /
    cyl_bessel_i0 alpha

/-- `wf_kbd_with_param_expr` of
src/ext/internal/solver/window_function/kbd_with_param.h: with
`t1 = 4 n / N - 1`, the raw KBD kernel is `I₀(π α sqrt(1 - t1²))`. -/
noncomputable def wf_kbd_with_param_expr (n : ℝ) (N : ℕ) (alpha : ℝ) : ℝ :=
  cyl_bessel_i0 (Real.pi * alpha * Real.sqrt (1.0 - (4.0 * n / N - 1.0) * (4.0 * n / N - 1.0)))

/-! ## Callback constructors (the `wf_cb_*` functions of
src/lib/window_function.c).  Each builds its `wf_iterfunc_t` literal and
hands it to `wf_iter_cb`; the literal is named separately so that its
fields can be stated. -/

/-- The `wf_iterfunc_t` literal of `wf_cb_rectangular` (lines 95-107). -/
noncomputable def wf_cb_rectangular_wfif : wf_iterfunc_t :=
  ⟨some wf_rectangular_expr, .fin 0, .WFIF_ITER_1D,
    .WFIF_NOCNTL, .WFIF_NOCNTL, .WFIF_NOCNTL⟩

noncomputable def wf_cb_rectangular (len : ℕ) : ℕ → ℝ :=
  wf_iter_cb wf_cb_rectangular_wfif len

/-- The `wf_iterfunc_t` literal of `wf_cb_hann` (lines 226-238). -/
noncomputable def wf_cb_hann_wfif : wf_iterfunc_t :=
  ⟨some wf_hann_expr, .fin 0, .WFIF_ITER_1D,
    .WFIF_NOCNTL, .WFIF_NOCNTL, .WFIF_NOCNTL⟩

noncomputable def wf_cb_hann (len : ℕ) : ℕ → ℝ :=
  wf_iter_cb wf_cb_hann_wfif len

/-- The `wf_iterfunc_t` literal of `wf_cb_generalized_hamming`
(lines 149-161), for an already-validated parameter `p`. -/
noncomputable def wf_cb_generalized_hamming_wfif (p : ℝ) : wf_iterfunc_t :=
  ⟨some wf_generalized_hamming_eval, .fin p, .WFIF_ITER_1D,
    .WFIF_NOCNTL, .WFIF_NOCNTL, .WFIF_NOCNTL⟩

/-- `wf_cb_generalized_hamming`: evaluating the struct literal runs
`wf_generalized_hamming_calc_param(alpha)`, which may raise; on success the
iteration runs with the validated parameter.  Both `hamming(len, alpha)` and
`hann(len, alpha)` dispatch here (src/lib/window_function.c lines 216
and 292). -/
noncomputable def wf_cb_generalized_hamming (alpha : ℝ) (len : ℕ) :
    Except WfRangeError (ℕ → ℝ) :=
  match wf_generalized_hamming_calc_param alpha with
  | .error e => .error e
  | .ok p => .ok (wf_iter_cb (wf_cb_generalized_hamming_wfif p) len)

/-- The `wf_iterfunc_t` literal of `wf_cb_gaussian_with_param`
(lines 400-412): NaN parameter handled by the kurtonic fill, infinite
parameter uncontrolled, zero parameter handled by the kurtonic fill. -/
noncomputable def wf_cb_gaussian_with_param_wfif (sigma : WParam) : wf_iterfunc_t :=
  ⟨some wf_gaussian_with_param_expr, wf_gaussian_calc_param sigma, .WFIF_ITER_1D,
    .WFIF_KURT, .WFIF_NOCNTL, .WFIF_KURT⟩

noncomputable def wf_cb_gaussian_with_param (sigma : WParam) (len : ℕ) : ℕ → ℝ :=
  wf_iter_cb (wf_cb_gaussian_with_param_wfif sigma) len

/-- The `wf_iterfunc_t` literal of `wf_cb_kaiser` (lines 459-471). -/
noncomputable def wf_cb_kaiser_wfif : wf_iterfunc_t :=
  ⟨some wf_kaiser_eval, .fin 0, .WFIF_ITER_1D,
    .WFIF_NOCNTL, .WFIF_NOCNTL, .WFIF_NOCNTL⟩

noncomputable def wf_cb_kaiser (len : ℕ) : ℕ → ℝ :=
  wf_iter_cb wf_cb_kaiser_wfif len

/-- The `wf_iterfunc_t` literal of `wf_cb_kaiser_with_param`
(lines 475-487): NaN → kurtonic, infinite → kurtonic, zero → rectangular. -/
noncomputable def wf_cb_kaiser_with_param_wfif (alpha : WParam) : wf_iterfunc_t :=
  ⟨some wf_kaiser_with_param_expr, alpha, .WFIF_ITER_1D,
    .WFIF_KURT, .WFIF_KURT, .WFIF_RECT⟩

noncomputable def wf_cb_kaiser_with_param (alpha : WParam) (len : ℕ) : ℕ → ℝ :=
  wf_iter_cb (wf_cb_kaiser_with_param_wfif alpha) len

/-- The `wf_iterfunc_t` literal of `wf_cb_kbd_with_param` (lines 772-784):
ModifiedDCT rule; NaN → rectangular, infinite → rectangular, zero
uncontrolled. -/
noncomputable def wf_cb_kbd_with_param_wfif (alpha : WParam) : wf_iterfunc_t :=
  ⟨some wf_kbd_with_param_expr, alpha, .WFIF_ITER_MDCT,
    .WFIF_RECT, .WFIF_RECT, .WFIF_NOCNTL⟩

noncomputable def wf_cb_kbd_with_param (alpha : WParam) (len : ℕ) : ℕ → ℝ :=
  wf_iter_cb (wf_cb_kbd_with_param_wfif alpha) len

/-- The array materializer `rb_wf_ary_new` of src/lib/window_function.c
(lines 76-88), instrumented with the number of result-array allocations
performed before the callback runs: `rb_ary_new2(len)` and
`ALLOC_N(double, len)` are both executed unconditionally *before*
`func(param, len, w)` is invoked, so any error the callback raises (such as
the generalized-Hamming domain error) is raised after 2 allocations. -/
noncomputable def rb_wf_ary_new
    (func : ℝ → ℕ → Except WfRangeError (ℕ → ℝ)) (len : ℕ) (param : ℝ) :
    ℕ × Except WfRangeError (ℕ → ℝ) :=
  (2, func param len)

/-! ## RIFF/WAVE linear-PCM codec (src/ext/riff.c)

Bytes are modelled as natural numbers; every byte the writer produces lies
in `[0, 255]`.  Samples are modelled as rationals (the codec performs only
exact scaling, clamping, truncation and byte packing on them). -/

/-- One error constructor per `rb_raise` site of src/ext/riff.c, plus an
EOF error for `readpartial` hitting the end of the byte stream. -/
inductive RiffErr
  | unknownRiffChunkID
  | unknownFileFormatType
  | noFormatChunk
  | notLinearPCM
  | channelsZero
  | samplesPerSecZero
  | bytesPerSecZero
  | blockSizeZero
  | bitsPerSampleZero
  | blockSizeMismatch
  | bytesPerSecMismatch
  | noDataChunk
  | dataSizeNotMultiple
  | unsupportedBits
  | tooManyPCM
  | differentSamplingRate
  | differentLength
  | eofError
  deriving DecidableEq, Repr

/-- The interface of a `Wave::PCM` buffer that the codec consumes: a
sampling rate and the owned sample array. -/
structure PCMBuf where
  fs : ℕ
  data : List ℚ
  deriving DecidableEq, Repr

/-- Truncation of a rational toward zero, the behaviour of a C cast from
`double` to an integer type (`x.den` is positive and `Int.tdiv` truncates
toward zero). -/
def qtrunc (x : ℚ) : ℤ := Int.tdiv x.num x.den

/-- Little-endian packing of `rb_str_cat_uintle` for size 2. -/
def u16le (v : ℕ) : List ℕ := [v % 256, v / 256 % 256]

/-- Little-endian packing of `rb_str_cat_uintle` for size 4. -/
def u32le (v : ℕ) : List ℕ :=
  [v % 256, v / 256 % 256, v / 65536 % 256, v / 16777216 % 256]

/-- `dbyte2u16le` of src/ext/riff.c: `ptr[0] | ptr[1] << 8` (for bytes
below 256 the bitwise-or of disjoint shifted bytes equals the sum). -/
def dbyte2u16le (b : List ℕ) : ℕ := b.getD 0 0 + 256 * b.getD 1 0

/-- `qbyte2u32le` of src/ext/riff.c. -/
def qbyte2u32le (b : List ℕ) : ℕ :=
  b.getD 0 0 + 256 * b.getD 1 0 + 65536 * b.getD 2 0 + 16777216 * b.getD 3 0

/-- `fclip` of src/ext/riff.c: `fmin(fmax(min, x), max)`. -/
def fclip (x mn mx : ℚ) : ℚ := min (max mn x) mx

/-- `wave_normalize` of src/ext/riff.c.  The C guard `if (x != x) x = 0`
maps NaN to zero; rationals idealizing the finite doubles have no NaN, so
that branch never fires here. -/
def wave_normalize (x mn mx rate : ℚ) : ℚ := fclip (x * rate) mn mx

/-- `pcm_write_8bit`: offset-binary; the cast to `unsigned char` truncates
the (always in-range, nonnegative) `digitize + 0x80` toward zero. -/
def pcm_write_8bit (s : ℚ) : List ℕ :=
  [(qtrunc (wave_normalize s (-128) 127 128 + 128)).toNat]

/-- `pcm_write_16bit`: two's-complement little-endian int16. -/
def pcm_write_16bit (s : ℚ) : List ℕ :=
  let bytes : ℤ := qtrunc (wave_normalize s (-32768) 32767 32768)
  u16le ((bytes % 65536).toNat)

/-- `pcm_write_24bit`: two's-complement little-endian int24 stored in an
int32; only the low three bytes are emitted. -/
def pcm_write_24bit (s : ℚ) : List ℕ :=
  let bytes : ℤ := qtrunc (wave_normalize s (-8388608) 8388607 8388608)
  [((bytes % 16777216).toNat) % 256,
   ((bytes % 16777216).toNat) / 256 % 256,
   ((bytes % 16777216).toNat) / 65536 % 256]

/-- `pcm_write_32bit`: two's-complement little-endian int32. -/
def pcm_write_32bit (s : ℚ) : List ℕ :=
  let bytes : ℤ := qtrunc (wave_normalize s (-2147483648) 2147483647 2147483648)
  u32le ((bytes % 4294967296).toNat)

/-- `pcm_read_8bit`: `(char)(buf[0] - 0x80) / 128.0` (bytes are < 256, so
the `char` value is `buf[0] - 128`). -/
def pcm_read_8bit (b : List ℕ) : ℚ := ((b.getD 0 0 : ℤ) - 128 : ℤ) / (128 : ℚ)

/-- `pcm_read_16bit`: reassemble the int16 from two little-endian bytes. -/
def pcm_read_16bit (b : List ℕ) : ℚ :=
  let u := b.getD 0 0 + 256 * b.getD 1 0
  ((if u < 32768 then (u : ℤ) else (u : ℤ) - 65536) : ℤ) / (32768 : ℚ)

/-- `pcm_read_24bit`: reassemble and sign-extend (`data & 0x800000` test). -/
def pcm_read_24bit (b : List ℕ) : ℚ :=
  let u := b.getD 0 0 + 256 * b.getD 1 0 + 65536 * b.getD 2 0
  ((if u < 8388608 then (u : ℤ) else (u : ℤ) - 16777216) : ℤ) / (8388608 : ℚ)

/-- `pcm_read_32bit`: reassemble the int32 from four little-endian bytes. -/
def pcm_read_32bit (b : List ℕ) : ℚ :=
  let u := qbyte2u32le b
  ((if u < 2147483648 then (u : ℤ) else (u : ℤ) - 4294967296) : ℤ) / (2147483648 : ℚ)

/-- The bit-depth dispatch of the reader's `switch (bits_per_sample)`. -/
def pcm_read_sample (bits : ℕ) (b : List ℕ) : ℚ :=
  match bits with
  | 8 => pcm_read_8bit b
  | 16 => pcm_read_16bit b
  | 24 => pcm_read_24bit b
  | 32 => pcm_read_32bit b
  | _ => 0

/-- The bit-depth dispatch of the writer's `switch (bits_per_sample)`. -/
def pcm_write_sample (bits : ℕ) (s : ℚ) : List ℕ :=
  match bits with
  | 8 => pcm_write_8bit s
  | 16 => pcm_write_16bit s
  | 24 => pcm_write_24bit s
  | 32 => pcm_write_32bit s
  | _ => []

/-- `io_readpartial`: take exactly `n` bytes off the stream or fail with
the EOF error `readpartial` raises at end of input. -/
def readBytes (n : ℕ) (bs : List ℕ) : Except RiffErr (List ℕ × List ℕ) :=
  if n ≤ bs.length then .ok (bs.take n, bs.drop n) else .error .eofError

/-- Sequencing of the reader's straight-line code: propagate the first
raised error. -/
def pstep {α β : Type} (x : Except RiffErr α) (f : α → Except RiffErr β) :
    Except RiffErr β :=
  match x with
  | .error e => .error e
  | .ok a => f a

theorem pstep_ok {α β : Type} (a : α) (f : α → Except RiffErr β) :
    pstep (.ok a) f = f a := rfl

theorem pstep_error {α β : Type} (e : RiffErr) (f : α → Except RiffErr β) :
    pstep (.error e) f = .error e := rfl

/-- Header-and-data parsing phase of `wave_read_linear_pcm`
(src/ext/riff.c lines 92-196), in the exact order of the C checks.  It
returns `(channels, samples_per_sec, bits_per_sample, length, data bytes)`;
every `rb_raise` site becomes an `Except.error` before any PCM buffer is
created. -/
def wave_read_parse (bs : List ℕ) :
    Except RiffErr (ℕ × ℕ × ℕ × ℕ × List ℕ) :=
  pstep (readBytes 4 bs) fun (tag, bs) =>
  if ¬tag = [82, 73, 70, 70] then .error .unknownRiffChunkID else
  pstep (readBytes 4 bs) fun (_riff_chunk_size, bs) =>
  pstep (readBytes 4 bs) fun (wavetag, bs) =>
  if ¬wavetag = [87, 65, 86, 69] then .error .unknownFileFormatType else
  pstep (readBytes 4 bs) fun (fmttag, bs) =>
  if ¬fmttag = [102, 109, 116, 32] then .error .noFormatChunk else
  pstep (readBytes 4 bs) fun (_fmt_chunk_size, bs) =>
  pstep (readBytes 2 bs) fun (fmtb, bs) =>
  if ¬dbyte2u16le fmtb = 1 then .error .notLinearPCM else
  pstep (readBytes 2 bs) fun (chb, bs) =>
  if dbyte2u16le chb = 0 then .error .channelsZero else
  pstep (readBytes 4 bs) fun (fsb, bs) =>
  if qbyte2u32le fsb = 0 then .error .samplesPerSecZero else
  pstep (readBytes 4 bs) fun (bpsb, bs) =>
  if qbyte2u32le bpsb = 0 then .error .bytesPerSecZero else
  pstep (readBytes 2 bs) fun (blkb, bs) =>
  if dbyte2u16le blkb = 0 then .error .blockSizeZero else
  pstep (readBytes 2 bs) fun (bitsb, bs) =>
  if dbyte2u16le bitsb = 0 then .error .bitsPerSampleZero else
  if ¬dbyte2u16le bitsb / 8 * dbyte2u16le chb = dbyte2u16le blkb then
    .error .blockSizeMismatch else
  if ¬qbyte2u32le fsb * dbyte2u16le blkb = qbyte2u32le bpsb then
    .error .bytesPerSecMismatch else
  pstep (readBytes 4 bs) fun (datatag, bs) =>
  if ¬datatag = [100, 97, 116, 97] then .error .noDataChunk else
  pstep (readBytes 4 bs) fun (szb, bs) =>
  if ¬qbyte2u32le szb % dbyte2u16le blkb = 0 then .error .dataSizeNotMultiple else
  if ¬(dbyte2u16le bitsb = 8 ∨ dbyte2u16le bitsb = 16 ∨
       dbyte2u16le bitsb = 24 ∨ dbyte2u16le bitsb = 32) then
    .error .unsupportedBits else
  pstep (readBytes (qbyte2u32le szb) bs) fun (data, _bs) =>
  .ok (dbyte2u16le chb, qbyte2u32le fsb, dbyte2u16le bitsb,
       qbyte2u32le szb / dbyte2u16le blkb, data)

/-- `wave_read_linear_pcm` of src/ext/riff.c (lines 92-236), instrumented
with the number of `rb_pcm_new` allocations performed before it returns: on
every error path that count is 0, on success one buffer per channel is
allocated and then filled.  The decode loop takes, for channel `i` and
frame `j`, the `bits/8` bytes at offset `j * block_size + i * (bits/8)`
(the C offset `i * block_size / channels`). -/
def wave_read_linear_pcm (bs : List ℕ) : ℕ × Except RiffErr (List PCMBuf) :=
  match wave_read_parse bs with
  | .error e => (0, .error e)
  | .ok (channels, samples_per_sec, bits, length, data) =>
    (channels, .ok ((List.range channels).map fun i =>
      ⟨samples_per_sec, (List.range length).map fun j =>
        pcm_read_sample bits
          ((data.drop (j * (bits / 8 * channels) + i * (bits / 8))).take (bits / 8))⟩))

/-- The sampling-rate / length gathering loop of `wave_write_linear_pcm`
(src/ext/riff.c lines 415-434): a zero accumulator adopts the channel's
value, a non-zero accumulator must match it. -/
def wave_gather_fs_len : List PCMBuf → ℕ → ℕ → Except RiffErr (ℕ × ℕ)
  | [], fs, len => .ok (fs, len)
  | obj :: rest, fs, len =>
    if fs = 0 then
      if len = 0 then wave_gather_fs_len rest obj.fs obj.data.length
      else if ¬obj.data.length = len then .error .differentLength
      else wave_gather_fs_len rest obj.fs len
    else if ¬obj.fs = fs then .error .differentSamplingRate
    else if len = 0 then wave_gather_fs_len rest fs obj.data.length
    else if ¬obj.data.length = len then .error .differentLength
    else wave_gather_fs_len rest fs len

/-- `wave_write_linear_pcm` of src/ext/riff.c (lines 362-526), as the byte
stream it writes.  Bit-depth dispatch and derived header fields follow the
C expressions (`length * bits / 8 * channels` with integer division); the
`data` chunk size *field* is written as `data_chunk_size + 1` when
`data_chunk_size` is odd, and one zero pad byte is appended after the
sample data in that case. -/
def wave_write_linear_pcm (pcm_ary : List PCMBuf) (bits : ℕ) :
    Except RiffErr (List ℕ) :=
  if 65535 < pcm_ary.length then .error .tooManyPCM else
  pstep (wave_gather_fs_len pcm_ary 0 0) fun (samples_per_sec, length) =>
  if ¬(bits = 8 ∨ bits = 16 ∨ bits = 24 ∨ bits = 32) then
    .error .unsupportedBits else
  let channels := pcm_ary.length
  let bytes_per_sec := samples_per_sec * bits / 8 * channels
  let block_size := bits / 8 * channels
  let data_chunk_size := length * bits / 8 * channels
  let riff_base := 36 + data_chunk_size
  let riff_chunk_size := if riff_base % 2 = 1 then riff_base + 1 else riff_base
  .ok ([82, 73, 70, 70] ++ u32le riff_chunk_size ++ [87, 65, 86, 69] ++
       [102, 109, 116, 32] ++ u32le 16 ++ u16le 1 ++ u16le channels ++
       u32le samples_per_sec ++ u32le bytes_per_sec ++ u16le block_size ++
       u16le bits ++ [100, 97, 116, 97] ++
       u32le (if data_chunk_size % 2 = 1 then data_chunk_size + 1
              else data_chunk_size) ++
       ((List.range length).map fun j =>
         (pcm_ary.map fun buf => pcm_write_sample bits (buf.data.getD j 0)).flatten).flatten ++
       (if data_chunk_size % 2 = 1 then [0] else []))

/-! ## Helper lemmas about the embedded engine -/

theorem cyl_bessel_i0_zero : cyl_bessel_i0 0 = 1 := by
  unfold cyl_bessel_i0
  rw [tsum_eq_single 0]
  · simp
  · intro b hb
    rw [zero_div, zero_pow (Nat.mul_ne_zero two_ne_zero hb), zero_div]

theorem cyl_bessel_i0_nonneg (x : ℝ) : 0 ≤ cyl_bessel_i0 x := by
  unfold cyl_bessel_i0
  refine tsum_nonneg fun k => div_nonneg ?_ (by positivity)
  rw [pow_mul]
  exact pow_nonneg (sq_nonneg _) k

theorem wf_iter_cb_of_nocntl_1d (wfif : wf_iterfunc_t) (f : ℝ → ℕ → ℝ → ℝ)
    (herr : wf_iter_errhdl wfif = .WFIF_NOCNTL)
    (hr : wfif.iter_rule = .WFIF_ITER_1D) (hf : wfif.iterfunc = some f) (N : ℕ) :
    wf_iter_cb wfif N = wf_iter_rule_1d f wfif.param.toReal N := by
  unfold wf_iter_cb
  rw [herr, hr, hf]

theorem wf_iter_cb_of_nocntl_mdct (wfif : wf_iterfunc_t) (f : ℝ → ℕ → ℝ → ℝ)
    (herr : wf_iter_errhdl wfif = .WFIF_NOCNTL)
    (hr : wfif.iter_rule = .WFIF_ITER_MDCT) (hf : wfif.iterfunc = some f) (N : ℕ) :
    wf_iter_cb wfif N = wf_iter_rule_mdct f wfif.param.toReal N := by
  unfold wf_iter_cb
  rw [herr, hr, hf]

theorem wf_iter_cb_of_kurt (wfif : wf_iterfunc_t)
    (herr : wf_iter_errhdl wfif = .WFIF_KURT) (N : ℕ) :
    wf_iter_cb wfif N = wf_iter_make_kurt N := by
  unfold wf_iter_cb
  rw [herr]

theorem wf_errhdl_hann : wf_iter_errhdl wf_cb_hann_wfif = .WFIF_NOCNTL := by
  simp [wf_iter_errhdl, wf_cb_hann_wfif, WParam.isnan, WParam.isinf, WParam.eqZero]

/-- Evaluation of the even-branch 1D rule below the midpoint. -/
theorem wf_1d_even_lt (f : ℝ → ℕ → ℝ → ℝ) (param : ℝ) (N i : ℕ)
    (he : N % 2 = 0) (hi : i < N / 2) :
    wf_iter_rule_1d f param N i = f (i : ℝ) N param := by
  unfold wf_iter_rule_1d
  rw [if_pos (by omega), if_pos he, if_neg (by omega), if_pos hi]

/-- Evaluation of the even-branch 1D rule above the midpoint (the mirror
write `w[N-n] = value` at loop index `n = N - i`). -/
theorem wf_1d_even_gt (f : ℝ → ℕ → ℝ → ℝ) (param : ℝ) (N i : ℕ)
    (he : N % 2 = 0) (h2 : N / 2 < i) (hi : i < N) :
    wf_iter_rule_1d f param N i = f ((N - i : ℕ) : ℝ) N param := by
  unfold wf_iter_rule_1d
  rw [if_pos hi, if_pos he, if_neg (by omega), if_neg (by omega)]

/-- Evaluation of the odd-branch 1D rule below the midpoint. -/
theorem wf_1d_odd_lt (f : ℝ → ℕ → ℝ → ℝ) (param : ℝ) (N i : ℕ)
    (ho : N % 2 = 1) (hi : i < N / 2) :
    wf_iter_rule_1d f param N i = f ((i : ℝ) + 0.5) N param := by
  unfold wf_iter_rule_1d
  rw [if_pos (by omega), if_neg (by omega), if_neg (by omega), if_pos hi]

/-- Evaluation of the odd-branch 1D rule above the midpoint (the mirror
write `w[N-1-n] = value` at loop index `n = N - 1 - i`). -/
theorem wf_1d_odd_gt (f : ℝ → ℕ → ℝ → ℝ) (param : ℝ) (N i : ℕ)
    (ho : N % 2 = 1) (h2 : N / 2 < i) (hi : i < N) :
    wf_iter_rule_1d f param N i = f (((N - 1 - i : ℕ) : ℝ) + 0.5) N param := by
  unfold wf_iter_rule_1d
  rw [if_pos hi, if_neg (by omega), if_neg (by omega), if_neg (by omega)]

/-- The 1D rule forces the midpoint element of any window to exactly 1. -/
theorem wf_1d_center (f : ℝ → ℕ → ℝ → ℝ) (param : ℝ) (N : ℕ) (h1 : 1 ≤ N) :
    wf_iter_rule_1d f param N (N / 2) = 1 := by
  unfold wf_iter_rule_1d
  rcases Nat.mod_two_eq_zero_or_one N with he | ho
  · rw [if_pos (by omega), if_pos he, if_pos rfl]
  · rw [if_pos (by omega), if_neg (by omega), if_pos rfl]

/-- Two formula/parameter pairs that agree pointwise produce the same
1D-rule array. -/
theorem wf_iter_rule_1d_congr (f g : ℝ → ℕ → ℝ → ℝ) (pf pg : ℝ) (N : ℕ)
    (h : ∀ x : ℝ, f x N pf = g x N pg) (i : ℕ) :
    wf_iter_rule_1d f pf N i = wf_iter_rule_1d g pg N i := by
  unfold wf_iter_rule_1d
  split_ifs <;> simp [h]

/-! ## Claim C1 -/

/-- C1 (corrected): symmetry of the OneDimensional iteration rule.  For odd
`N` the array is bilaterally symmetric (`w[i] = w[N-1-i]`); for even `N`
the engine mirrors with `w[N-n] = value`, so the symmetry that actually
holds is `w[i] = w[N-i]` for `1 ≤ i ≤ N-1` (periodic/DFT-even symmetry),
not bilateral symmetry. -/
theorem wf_1d_rule_symmetry (f : ℝ → ℕ → ℝ → ℝ) (param : ℝ) (N i : ℕ)
    (hi : i < N) :
    (N % 2 = 1 →
      wf_iter_rule_1d f param N i = wf_iter_rule_1d f param N (N - 1 - i)) ∧
    (N % 2 = 0 → 1 ≤ i →
      wf_iter_rule_1d f param N i = wf_iter_rule_1d f param N (N - i)) := by
  constructor
  · intro ho
    rcases Nat.lt_trichotomy i (N / 2) with h | h | h
    · rw [wf_1d_odd_lt f param N i ho h,
        wf_1d_odd_gt f param N (N - 1 - i) ho (by omega) (by omega)]
      have hii : N - 1 - (N - 1 - i) = i := by omega
      rw [hii]
    · rw [h]
      have hj : N - 1 - N / 2 = N / 2 := by omega
      rw [hj]
    · rw [wf_1d_odd_gt f param N i ho h hi,
        wf_1d_odd_lt f param N (N - 1 - i) ho (by omega)]
  · intro he h1
    rcases Nat.lt_trichotomy i (N / 2) with h | h | h
    · rw [wf_1d_even_lt f param N i he h,
        wf_1d_even_gt f param N (N - i) he (by omega) (by omega)]
      have hii : N - (N - i) = i := by omega
      rw [hii]
    · rw [h]
      have hj : N - N / 2 = N / 2 := by omega
      rw [hj]
    · rw [wf_1d_even_gt f param N i he h hi,
        wf_1d_even_lt f param N (N - i) he (by omega)]

/-- C1 witness: the amended symmetry at `hann`-shaped data, `N = 5`,
`i = 1`. -/
theorem wf_1d_rule_symmetry_witness :
    (1 < 5) ∧
    ((5 % 2 = 1 →
       wf_iter_rule_1d wf_hann_expr 0 5 1 = wf_iter_rule_1d wf_hann_expr 0 5 (5 - 1 - 1)) ∧
     (5 % 2 = 0 → 1 ≤ 1 →
       wf_iter_rule_1d wf_hann_expr 0 5 1 = wf_iter_rule_1d wf_hann_expr 0 5 (5 - 1))) :=
  ⟨by decide, wf_1d_rule_symmetry wf_hann_expr 0 5 1 (by decide)⟩

/-- C1 counterexample: `hann(4)` (a supported window generated under the
OneDimensional rule, `N = 4 ≥ 1`) is not bilaterally symmetric:
`result[0] = 0` but `result[4-1-0] = result[3] = 0.5`. -/
theorem wf_1d_even_bilateral_cex : ¬ wf_cb_hann 4 0 = wf_cb_hann 4 (4 - 1 - 0) := by
  unfold wf_cb_hann
  rw [wf_iter_cb_of_nocntl_1d wf_cb_hann_wfif wf_hann_expr wf_errhdl_hann rfl rfl]
  have h0 : wf_iter_rule_1d wf_hann_expr wf_cb_hann_wfif.param.toReal 4 0 = 0 := by
    rw [wf_1d_even_lt wf_hann_expr _ 4 0 (by norm_num) (by norm_num)]
    unfold wf_hann_expr
    norm_num
  have h3 : wf_iter_rule_1d wf_hann_expr wf_cb_hann_wfif.param.toReal 4 3 = 0.5 := by
    rw [wf_1d_even_gt wf_hann_expr _ 4 3 (by norm_num) (by norm_num) (by norm_num)]
    unfold wf_hann_expr
    have harg : 2.0 * Real.pi * ((4 - 3 : ℕ) : ℝ) / ((4 : ℕ) : ℝ) = Real.pi / 2 := by
      norm_num
      ring
    rw [harg, Real.cos_pi_div_two]
    norm_num
  rw [show 4 - 1 - 0 = 3 from rfl, h0, h3]
  norm_num

/-! ## Claim C5 -/

theorem wf_iter_cb_of_rect (wfif : wf_iterfunc_t)
    (herr : wf_iter_errhdl wfif = .WFIF_RECT) (N : ℕ) :
    wf_iter_cb wfif N = wf_iter_make_rect N := by
  unfold wf_iter_cb
  rw [herr]

/-- C5 (confirmed): every window generated under the OneDimensional rule
with even length `N ≥ 1` has `result[N/2] = 1.0` exactly, whatever the
parameter: the rectangular and kurtonic special-value fills both put `1.0`
at index `N/2`, and the 1D rule itself ends with `w[N/2] = 1.`. -/
theorem wf_1d_center_unity (wfif : wf_iterfunc_t) (f : ℝ → ℕ → ℝ → ℝ)
    (hf : wfif.iterfunc = some f) (hrule : wfif.iter_rule = .WFIF_ITER_1D)
    (N : ℕ) (h1 : 1 ≤ N) (he : N % 2 = 0) :
    wf_iter_cb wfif N (N / 2) = 1 := by
  have hN2 : N / 2 < N := by omega
  cases herr : wf_iter_errhdl wfif
  case WFIF_NOCNTL =>
    rw [wf_iter_cb_of_nocntl_1d wfif f herr hrule hf]
    exact wf_1d_center f wfif.param.toReal N h1
  case WFIF_RECT =>
    rw [wf_iter_cb_of_rect wfif herr]
    unfold wf_iter_make_rect
    rw [if_pos hN2]
  case WFIF_KURT =>
    rw [wf_iter_cb_of_kurt wfif herr]
    unfold wf_iter_make_kurt
    rw [if_pos hN2, if_pos rfl]

/-- C5 witness: the hann generator at `N = 4`. -/
theorem wf_1d_center_unity_witness :
    wf_cb_hann_wfif.iterfunc = some wf_hann_expr ∧
    wf_cb_hann_wfif.iter_rule = .WFIF_ITER_1D ∧
    1 ≤ 4 ∧ 4 % 2 = 0 ∧ wf_iter_cb wf_cb_hann_wfif 4 (4 / 2) = 1 :=
  ⟨rfl, rfl, by decide, by decide,
    wf_1d_center_unity wf_cb_hann_wfif wf_hann_expr rfl rfl 4 (by decide) (by decide)⟩

/-! ## Claim C6 -/

theorem wf_errhdl_gaussian_zero :
    wf_iter_errhdl (wf_cb_gaussian_with_param_wfif (.fin 0)) = .WFIF_KURT := by
  simp [wf_iter_errhdl, wf_cb_gaussian_with_param_wfif, wf_gaussian_calc_param,
    WParam.isnan, WParam.isinf, WParam.eqZero]

theorem wf_errhdl_gaussian_nan :
    wf_iter_errhdl (wf_cb_gaussian_with_param_wfif .nan) = .WFIF_KURT := by
  simp [wf_iter_errhdl, wf_cb_gaussian_with_param_wfif, wf_gaussian_calc_param,
    WParam.isnan, WParam.isinf, WParam.eqZero]

/-- C6 (confirmed): `gaussian(len, 0)` and `gaussian(len, NaN)` both return
the kurtonic pattern (1.0 at index `len/2`, 0.0 at every other index): the
dispatcher substitutes the kurtonic fill instead of evaluating the Gaussian
formula. -/
theorem gaussian_degenerate_kurtonic (len i : ℕ) (hi : i < len) :
    wf_cb_gaussian_with_param (.fin 0) len i = (if i = len / 2 then 1 else 0) ∧
    wf_cb_gaussian_with_param .nan len i = (if i = len / 2 then 1 else 0) := by
  constructor
  · unfold wf_cb_gaussian_with_param
    rw [wf_iter_cb_of_kurt _ wf_errhdl_gaussian_zero]
    unfold wf_iter_make_kurt
    rw [if_pos hi]
  · unfold wf_cb_gaussian_with_param
    rw [wf_iter_cb_of_kurt _ wf_errhdl_gaussian_nan]
    unfold wf_iter_make_kurt
    rw [if_pos hi]

/-- C6 witness: `len = 5`, `i = 2` (the center) and the theorem applied
there. -/
theorem gaussian_degenerate_kurtonic_witness :
    (2 < 5) ∧
    (wf_cb_gaussian_with_param (.fin 0) 5 2 = (if 2 = 5 / 2 then 1 else 0) ∧
     wf_cb_gaussian_with_param .nan 5 2 = (if 2 = 5 / 2 then 1 else 0)) :=
  ⟨by decide, gaussian_degenerate_kurtonic 5 2 (by decide)⟩

/-! ## Claim C7 -/

theorem wf_errhdl_gham (p : ℝ) :
    wf_iter_errhdl (wf_cb_generalized_hamming_wfif p) = .WFIF_NOCNTL := by
  simp [wf_iter_errhdl, wf_cb_generalized_hamming_wfif, WParam.isnan,
    WParam.isinf, WParam.eqZero]

theorem wf_errhdl_rectangular :
    wf_iter_errhdl wf_cb_rectangular_wfif = .WFIF_NOCNTL := by
  simp [wf_iter_errhdl, wf_cb_rectangular_wfif, WParam.isnan, WParam.isinf,
    WParam.eqZero]

/-- C7 (confirmed): `hamming(len, 1)` (and `hann(len, 1)`, which dispatches
to the same `wf_cb_generalized_hamming`) returns exactly the rectangular
array, and every element below `len` is `1.0`. -/
theorem hamming_one_eq_rectangular (len i : ℕ) (hi : i < len) :
    wf_cb_generalized_hamming 1 len = .ok (wf_cb_rectangular len) ∧
    wf_cb_rectangular len i = 1 := by
  have hrect1 : ∀ j, j < len → wf_cb_rectangular len j = 1 := by
    intro j hj
    unfold wf_cb_rectangular
    rw [wf_iter_cb_of_nocntl_1d wf_cb_rectangular_wfif wf_rectangular_expr
      wf_errhdl_rectangular rfl rfl]
    unfold wf_iter_rule_1d wf_rectangular_expr
    rw [if_pos hj]
    split_ifs <;> rfl
  have hcalc : wf_generalized_hamming_calc_param 1 = .ok 1 := by
    unfold wf_generalized_hamming_calc_param
    rw [if_pos (by norm_num)]
  have harr : wf_iter_cb (wf_cb_generalized_hamming_wfif 1) len =
      wf_cb_rectangular len := by
    funext j
    unfold wf_cb_rectangular
    rw [wf_iter_cb_of_nocntl_1d (wf_cb_generalized_hamming_wfif 1)
        wf_generalized_hamming_eval (wf_errhdl_gham 1) rfl rfl,
      wf_iter_cb_of_nocntl_1d wf_cb_rectangular_wfif wf_rectangular_expr
        wf_errhdl_rectangular rfl rfl]
    refine wf_iter_rule_1d_congr _ _ _ _ len (fun x => ?_) j
    simp only [wf_cb_generalized_hamming_wfif, wf_cb_rectangular_wfif,
      WParam.toReal]
    unfold wf_generalized_hamming_eval wf_rectangular_expr
    norm_num
  constructor
  · unfold wf_cb_generalized_hamming
    rw [hcalc]
    exact congrArg Except.ok harr
  · exact hrect1 i hi

/-- C7 witness: `len = 5`, `i = 0`. -/
theorem hamming_one_eq_rectangular_witness :
    (0 < 5) ∧
    (wf_cb_generalized_hamming 1 5 = .ok (wf_cb_rectangular 5) ∧
     wf_cb_rectangular 5 0 = 1) :=
  ⟨by decide, hamming_one_eq_rectangular 5 0 (by decide)⟩

/-! ## Claim C10 -/

theorem wf_errhdl_kaiser : wf_iter_errhdl wf_cb_kaiser_wfif = .WFIF_NOCNTL := by
  simp [wf_iter_errhdl, wf_cb_kaiser_wfif, WParam.isnan, WParam.isinf,
    WParam.eqZero]

theorem wf_errhdl_kaiser_param_three :
    wf_iter_errhdl (wf_cb_kaiser_with_param_wfif (.fin 3)) = .WFIF_NOCNTL := by
  unfold wf_iter_errhdl
  rw [if_neg (by simp [wf_cb_kaiser_with_param_wfif, WParam.isnan]),
    if_neg (by simp [wf_cb_kaiser_with_param_wfif, WParam.isinf]),
    if_neg ?_]
  intro hc
  have h3 : (3 : ℝ) = 0 := hc.2
  norm_num at h3

/-- C10 (confirmed): the one-argument `kaiser(len)` and the two-argument
`kaiser(len, 3)` produce elementwise-equal arrays: the fixed formula
`I₀(6√(-(x-1)x))/I₀(3)` coincides with the parameterized (memoized
denominator) formula at `alpha = 3`. -/
theorem kaiser_default_eq_param3 (N i : ℕ) :
    wf_cb_kaiser N i = wf_cb_kaiser_with_param (.fin 3) N i := by
  unfold wf_cb_kaiser wf_cb_kaiser_with_param
  rw [wf_iter_cb_of_nocntl_1d wf_cb_kaiser_wfif wf_kaiser_eval
      wf_errhdl_kaiser rfl rfl,
    wf_iter_cb_of_nocntl_1d (wf_cb_kaiser_with_param_wfif (.fin 3))
      wf_kaiser_with_param_expr wf_errhdl_kaiser_param_three rfl rfl]
  refine wf_iter_rule_1d_congr _ _ _ _ N (fun x => ?_) i
  simp only [wf_cb_kaiser_wfif, wf_cb_kaiser_with_param_wfif, WParam.toReal]
  unfold wf_kaiser_eval wf_kaiser_with_param_expr
  norm_num

/-! ## Claim C2 -/

/-- C2 (corrected): the ModifiedDCT rule does NOT force the midpoint to 1.0
on the even branch — the even branch has no `w[N/2] = 1.` assignment, and
index `N/2` receives the mirrored normalized cumulative sum
`sqrt(psum(N/2)/sum)` (the value written to `w[N/2-1]`).  The forcing to
exact unity happens only on the odd branch. -/
theorem wf_mdct_midpoint (f : ℝ → ℕ → ℝ → ℝ) (param : ℝ) (N : ℕ)
    (h1 : 1 ≤ N) :
    (N % 2 = 0 → wf_iter_rule_mdct f param N (N / 2) =
      Real.sqrt (mdct_psum_even f param N (N / 2) / mdct_sum_even f param N)) ∧
    (N % 2 = 1 → wf_iter_rule_mdct f param N (N / 2) = 1) := by
  constructor
  · intro he
    unfold wf_iter_rule_mdct
    rw [if_pos (by omega), if_pos he, if_neg (by omega : ¬N / 2 < N / 2)]
    have hii : N - N / 2 = N / 2 := by omega
    rw [hii]
  · intro ho
    unfold wf_iter_rule_mdct
    rw [if_pos (by omega), if_neg (by omega), if_pos rfl]

/-- C2 witness: the KBD kernel with `alpha = 0` at `N = 2`. -/
theorem wf_mdct_midpoint_witness :
    (1 ≤ 2) ∧
    ((2 % 2 = 0 → wf_iter_rule_mdct wf_kbd_with_param_expr 0 2 (2 / 2) =
       Real.sqrt (mdct_psum_even wf_kbd_with_param_expr 0 2 (2 / 2) /
         mdct_sum_even wf_kbd_with_param_expr 0 2)) ∧
     (2 % 2 = 1 → wf_iter_rule_mdct wf_kbd_with_param_expr 0 2 (2 / 2) = 1)) :=
  ⟨by decide, wf_mdct_midpoint wf_kbd_with_param_expr 0 2 (by decide)⟩

theorem wf_errhdl_kbd_fin (a : ℝ) :
    wf_iter_errhdl (wf_cb_kbd_with_param_wfif (.fin a)) = .WFIF_NOCNTL := by
  simp [wf_iter_errhdl, wf_cb_kbd_with_param_wfif, WParam.isnan, WParam.isinf,
    WParam.eqZero]

/-- The KBD kernel at `alpha = 0` is constantly `I₀(0) = 1`. -/
theorem wf_kbd_alpha_zero (x : ℝ) (N : ℕ) : wf_kbd_with_param_expr x N 0 = 1 := by
  unfold wf_kbd_with_param_expr
  rw [mul_zero, zero_mul, cyl_bessel_i0_zero]

/-- C2 counterexample: `kbd(2, 0)` — even length `N = 2`, a shape parameter
that reaches the formula (the KBD request leaves a zero parameter
uncontrolled) — has `result[N/2] = result[1] = sqrt(1/2) ≠ 1.0`. -/
theorem wf_mdct_even_midpoint_cex : ¬ wf_cb_kbd_with_param (.fin 0) 2 1 = 1 := by
  unfold wf_cb_kbd_with_param
  rw [wf_iter_cb_of_nocntl_mdct (wf_cb_kbd_with_param_wfif (.fin 0))
    wf_kbd_with_param_expr (wf_errhdl_kbd_fin 0) rfl rfl]
  have hpar : (wf_cb_kbd_with_param_wfif (.fin 0)).param.toReal = 0 := rfl
  rw [hpar]
  have hpsum : mdct_psum_even wf_kbd_with_param_expr 0 2 1 = 1 := by
    unfold mdct_psum_even
    rw [Finset.sum_range_one, wf_kbd_alpha_zero]
  have hsum : mdct_sum_even wf_kbd_with_param_expr 0 2 = 2 := by
    unfold mdct_sum_even
    rw [hpsum, wf_kbd_alpha_zero]
    norm_num
  unfold wf_iter_rule_mdct
  rw [if_pos (by omega), if_pos (by norm_num), if_neg (by omega)]
  rw [show 2 - 1 = 1 from rfl, hpsum, hsum]
  intro hcontra
  have h12 : (1 : ℝ) / 2 = 1 := Real.sqrt_eq_one.mp hcontra
  norm_num at h12

/-! ## Claim C9 -/

/-- C9 (code_bug): the two `RUBY_ASSERT` conditions of the engine are false
at every reachable state, not true.  `wf_iter_cb` asserts
`wfif.iterfunc == NULL`, but every public generator (here the rectangular
one) passes a non-null formula pointer; the MDCT normalization loops assert
`signbit(w[n])`, but each accumulated partial sum of the KBD kernel is a sum
of values of `I₀`, hence nonnegative, for every shape parameter `alpha` and
every loop index `n < N/2`. -/
theorem wf_assert_conditions_false (alpha : ℝ) (N n : ℕ) (h : n < N / 2) :
    ¬ wf_cb_rectangular_wfif.iterfunc = none ∧
    ¬ signbit (mdct_psum_even wf_kbd_with_param_expr alpha N (n + 1)) ∧
    ¬ signbit (mdct_psum_odd wf_kbd_with_param_expr alpha N (n + 1)) := by
  refine ⟨by simp [wf_cb_rectangular_wfif], ?_, ?_⟩
  · unfold signbit mdct_psum_even
    rw [not_lt]
    refine Finset.sum_nonneg fun j _ => ?_
    unfold wf_kbd_with_param_expr
    exact cyl_bessel_i0_nonneg _
  · unfold signbit mdct_psum_odd
    rw [not_lt]
    refine Finset.sum_nonneg fun j _ => ?_
    unfold wf_kbd_with_param_expr
    exact cyl_bessel_i0_nonneg _

/-- C9 witness: `kbd(4, 1)`, first normalization-loop index `n = 0`. -/
theorem wf_assert_conditions_false_witness :
    (0 < 4 / 2) ∧
    (¬ wf_cb_rectangular_wfif.iterfunc = none ∧
     ¬ signbit (mdct_psum_even wf_kbd_with_param_expr 1 4 (0 + 1)) ∧
     ¬ signbit (mdct_psum_odd wf_kbd_with_param_expr 1 4 (0 + 1))) :=
  ⟨by decide, wf_assert_conditions_false 1 4 0 (by decide)⟩

/-! ## Claim C4 -/

/-- C4 (corrected): for a shape parameter outside `[0.5, 1]` the
generalized-Hamming generation raises the domain (range) error for every
length — but not before allocation: `rb_wf_ary_new` performs its 2 result
allocations (`rb_ary_new2` and `ALLOC_N`) unconditionally before the
callback, so the error is raised after the result array has been
allocated. -/
theorem gham_domain_error_after_alloc (len : ℕ) (alpha : ℝ)
    (h : alpha < 0.5 ∨ 1 < alpha) :
    (rb_wf_ary_new wf_cb_generalized_hamming len alpha).2 =
      .error .rangeError ∧
    (rb_wf_ary_new wf_cb_generalized_hamming len alpha).1 = 2 := by
  have hno : ¬(0.5 ≤ alpha ∧ alpha ≤ 1.0) := by
    rintro ⟨ha, hb⟩
    rcases h with h | h <;> linarith
  constructor
  · show wf_cb_generalized_hamming alpha len = .error .rangeError
    unfold wf_cb_generalized_hamming wf_generalized_hamming_calc_param
    rw [if_neg hno]
  · rfl

/-- C4 witness: `len = 5`, `alpha = 2`. -/
theorem gham_domain_error_after_alloc_witness :
    ((2 : ℝ) < 0.5 ∨ 1 < (2 : ℝ)) ∧
    ((rb_wf_ary_new wf_cb_generalized_hamming 5 2).2 = .error .rangeError ∧
     (rb_wf_ary_new wf_cb_generalized_hamming 5 2).1 = 2) :=
  ⟨Or.inr one_lt_two, gham_domain_error_after_alloc 5 2 (Or.inr one_lt_two)⟩

/-- C4 counterexample: at `len = 5`, `alpha = 2` the claim as stated — the
domain error is raised AND no array allocation was performed before it —
is false: the error is raised, but 2 allocations (result array and scratch
buffer) have already been performed. -/
theorem gham_domain_error_alloc_cex :
    ¬ ((rb_wf_ary_new wf_cb_generalized_hamming 5 2).2 =
         .error .rangeError ∧
       (rb_wf_ary_new wf_cb_generalized_hamming 5 2).1 = 0) := by
  rintro ⟨-, h⟩
  simp [rb_wf_ary_new] at h

/-! ## Claim C8 -/

theorem readBytes_append (n : ℕ) (l r : List ℕ) (h : l.length = n) :
    readBytes n (l ++ r) = .ok (l, r) := by
  subst h
  unfold readBytes
  rw [if_pos (by simp), List.take_left, List.drop_left]

theorem readBytes_four_cons (a b c d : ℕ) (r : List ℕ) :
    readBytes 4 (a :: b :: c :: d :: r) = .ok ([a, b, c, d], r) := by
  unfold readBytes
  rw [if_pos (by simp [List.length_cons])]
  rfl

theorem readBytes_two_cons (a b : ℕ) (r : List ℕ) :
    readBytes 2 (a :: b :: r) = .ok ([a, b], r) := by
  unfold readBytes
  rw [if_pos (by simp [List.length_cons])]
  rfl

/-- C8 (confirmed): a byte stream (of at least 4 bytes) whose first 4 bytes
are not `RIFF` is rejected with the semantic error of the first check, and
a well-formed prefix whose format tag is not 1 (the tag field bytes encode
`t0 + 256*t1`) is rejected with the `not a linear PCM` semantic error; in
both cases the reader has performed 0 `rb_pcm_new` buffer allocations (the
first component of the result). -/
theorem riff_reject_bad_magic_and_format (bs rest : List ℕ)
    (s0 s1 s2 s3 f0 f1 f2 f3 t0 t1 : ℕ)
    (h4 : 4 ≤ bs.length) (hm : ¬bs.take 4 = [82, 73, 70, 70])
    (ht : ¬t0 + 256 * t1 = 1) :
    wave_read_linear_pcm bs = (0, .error .unknownRiffChunkID) ∧
    wave_read_linear_pcm
      ([82, 73, 70, 70] ++ [s0, s1, s2, s3] ++ [87, 65, 86, 69] ++
       [102, 109, 116, 32] ++ [f0, f1, f2, f3] ++ [t0, t1] ++ rest) =
      (0, .error .notLinearPCM) := by
  constructor
  · have hp : wave_read_parse bs = .error .unknownRiffChunkID := by
      unfold wave_read_parse
      rw [show readBytes 4 bs = .ok (bs.take 4, bs.drop 4) from by
        unfold readBytes; rw [if_pos h4]]
      simp [pstep_ok, hm]
    unfold wave_read_linear_pcm
    rw [hp]
  · have hp : wave_read_parse
        ([82, 73, 70, 70] ++ [s0, s1, s2, s3] ++ [87, 65, 86, 69] ++
         [102, 109, 116, 32] ++ [f0, f1, f2, f3] ++ [t0, t1] ++ rest) =
        .error .notLinearPCM := by
      unfold wave_read_parse
      simp [readBytes_four_cons, readBytes_two_cons, pstep_ok, dbyte2u16le, ht]
    unfold wave_read_linear_pcm
    rw [hp]

/-- C8 witness: a 4-byte non-RIFF stream, and a minimal header whose format
tag value is 2. -/
theorem riff_reject_bad_magic_and_format_witness :
    (4 ≤ ([0, 0, 0, 0] : List ℕ).length ∧
     ¬([0, 0, 0, 0] : List ℕ).take 4 = [82, 73, 70, 70] ∧
     ¬(2 : ℕ) + 256 * 0 = 1) ∧
    (wave_read_linear_pcm [0, 0, 0, 0] = (0, .error .unknownRiffChunkID) ∧
     wave_read_linear_pcm
       ([82, 73, 70, 70] ++ [16, 0, 0, 0] ++ [87, 65, 86, 69] ++
        [102, 109, 116, 32] ++ [16, 0, 0, 0] ++ [2, 0] ++ []) =
       (0, .error .notLinearPCM)) :=
  ⟨⟨by decide, by decide, by decide⟩,
    riff_reject_bad_magic_and_format [0, 0, 0, 0] [] 16 0 0 0 16 0 0 0 2 0
      (by decide) (by decide) (by decide)⟩

/-! ## Claim C3 -/

theorem pcm_write_8bit_zero : pcm_write_8bit 0 = [128] := by
  unfold pcm_write_8bit wave_normalize fclip qtrunc
  norm_num
  decide

/-- The byte stream the writer produces for one channel at 48000 Hz with
the single sample `0.0` at 8 bits: `data_chunk_size = 1` is odd, so the
RIFF size field is `36 + 1 + 1 = 38`, the `data` chunk size field is
written as `1 + 1 = 2`, and a zero pad byte follows the single sample byte
`0x80 = 128`. -/
def c3_bytes : List ℕ :=
  [82, 73, 70, 70] ++ [38, 0, 0, 0] ++ [87, 65, 86, 69] ++
  [102, 109, 116, 32] ++ [16, 0, 0, 0] ++ [1, 0] ++ [1, 0] ++
  [128, 187, 0, 0] ++ [128, 187, 0, 0] ++ [1, 0] ++ [8, 0] ++
  [100, 97, 116, 97] ++ [2, 0, 0, 0] ++ [128] ++ [0]

/-- C3 (code_bug): writing one channel of length 1 at 8 bits produces an
odd `data_chunk_size = 1`, and the writer stores the padded size `2` in the
`data` chunk size field; reading the stream back therefore decodes the pad
byte as a sample: the recovered channel has length 2 (`[0.0, -1.0]`), not
the original length 1, so the padding byte is not ignored on read and the
round-trip does not preserve the per-channel length. -/
theorem riff_odd_padding_roundtrip_bug :
    wave_write_linear_pcm [⟨48000, [0]⟩] 8 = .ok c3_bytes ∧
    wave_read_linear_pcm c3_bytes = (1, .ok [⟨48000, [0, -1]⟩]) := by
  constructor
  · simp [wave_write_linear_pcm, wave_gather_fs_len, pstep, u32le, u16le,
      pcm_write_sample, pcm_write_8bit_zero, c3_bytes, List.range_succ]
  · have h1 : pcm_read_8bit [128] = 0 := by unfold pcm_read_8bit; norm_num
    have h2 : pcm_read_8bit [0] = -1 := by unfold pcm_read_8bit; norm_num
    simp [wave_read_linear_pcm, wave_read_parse, readBytes, pstep, c3_bytes,
      dbyte2u16le, qbyte2u32le, pcm_read_sample, h1, h2, List.range_succ]
